import Mathlib

/-!
Shallow embedding of `airpollutant.py` (repository simran-nijjar/Air-Pollutant).

The script resolves air-quality stations inside a bounding box
(`get_station_ids`), then for `sampling_period * sampling_rate` rounds
concurrently fetches a PM2.5 measurement per station
(`get_data_for_stations`), merges successful measurements into a list of
per-station-name series (`main`'s inner loop), sleeps `60 / sampling_rate`
seconds between rounds, and finally prints the series and their averages
(`print_sampled_value`, `print_overall_average_value`).

Modelling conventions:
* Numeric measurement values and coordinates are modelled as `ℚ`
  (the Python floats; none of the verified claims depends on rounding).
* Network responses are oracles: an inductive type enumerating the shapes
  the code distinguishes (transport error / JSON with a `data` field /
  JSON without one), and per-round fetch outcomes as
  `Option Measurement` (`none` = any fetch that does not yield both a
  station name and a pm25 value: HTTP error, missing field, extraction
  exception — the code treats all of these alike at lines 61-64).
* The nondeterministic `as_completed` completion order of one round is a
  parameter: the list of (station id, fetch outcome) pairs in the order
  the futures complete.
* Side effects (network calls, `time.sleep`, printing) are reified as an
  event trace so that scheduling claims are statements about the trace.
-/

/-- Station identifiers (`uid` values from the API) are opaque; the code
uses them only as dictionary keys. -/
abbrev StationId := Nat

/-- A successful per-station fetch: the station's reported display name
(`air_data['data']['city']['name']`) and its pm25 value
(`air_data['data']['iaqi']['pm25']['v']`), lines 58-59. -/
structure Measurement where
  station_name : String
  pm25 : ℚ
deriving DecidableEq, Repr

/-- One entry of `main`'s `data_list` (lines 118-130): a station name and
its list of sampled values.  The value list is wrapped in `Option`
because `print_overall_average_value` (line 92) tests `pm25_values is
not None`, so the embedding must be able to express an absent list. -/
structure Entry where
  station_name : String
  pm25_values : Option (List ℚ)
deriving DecidableEq, Repr

/-- The shapes of the bounding-box query response that `get_station_ids`
(lines 13-29) distinguishes: a raised/requests error, a JSON body with a
`data` field (whose stations' `uid` fields are the listed ids), or a
JSON body without one. -/
inductive ResolverResponse where
  | failure (e : String)
  | jsonWithData (uids : List StationId)
  | jsonWithoutData
deriving DecidableEq, Repr

/-- `get_station_ids` (lines 13-29): returns `(list of uids, None)` on a
JSON body carrying `data`, `(None, "No station data found")` when the
field is absent, and `(None, e)` when the request raised. -/
def get_station_ids (resp : ResolverResponse) :
    Option (List StationId) × Option String :=
  match resp with
  | .failure e => (none, some e)
  | .jsonWithData uids => (some uids, none)
  | .jsonWithoutData => (none, some "No station data found")

/-- `get_data_for_stations` (lines 48-65): iterate over the round's
futures in completion order; a successful fetch appends
`{station_name, pm25}` to `data_list`, anything else prints an error for
that station id.  Output: (`data_list`, ids whose error line was
printed). -/
def get_data_for_stations (completed : List (StationId × Option Measurement)) :
    List Measurement × List StationId :=
  completed.foldl
    (fun acc p =>
      match p.2 with
      | some m => (acc.1 ++ [m], acc.2)
      | none => (acc.1, acc.2 ++ [p.1]))
    ([], [])

/-- `validate_coordinates` (lines 69-78): four range checks, each raising
`ValueError` (modelled as `Except.error` with the message) when violated. -/
def validate_coordinates (latitude_1 longitude_1 latitude_2 longitude_2 : ℚ) :
    Except String Unit :=
  if ¬(-90 ≤ latitude_1 ∧ latitude_1 ≤ 90) then
    .error "Latitude 1 must be between -90 and 90."
  else if ¬(-180 ≤ longitude_1 ∧ longitude_1 ≤ 180) then
    .error "Longitude 1 must be between -180 and 180."
  else if ¬(-90 ≤ latitude_2 ∧ latitude_2 ≤ 90) then
    .error "Latitude 2 must be between -90 and 90."
  else if ¬(-180 ≤ longitude_2 ∧ longitude_2 ≤ 180) then
    .error "Longitude 2 must be between -180 and 180."
  else
    .ok ()

/-- The scan at lines 120-124: find the first `data_list` entry whose
`station_name` matches, and append the value to it (line 127).  Python's
`.append` mutates the found entry in place; entries after the first
match are untouched.  When no entry matches the list is returned
unchanged (the Python loop then takes the `else` branch instead). -/
def appendToFirst : List Entry → String → ℚ → List Entry
  | [], _, _ => []
  | e :: rest, name, v =>
    if e.station_name = name then
      { e with pm25_values := e.pm25_values.map (fun vs => vs ++ [v]) } :: rest
    else
      e :: appendToFirst rest name v

/-- One iteration of the merge loop at lines 114-130: if some entry
already has this measurement's station name, append the value to the
first such entry; otherwise append a fresh entry
`{station_name, pm25_values = [value]}`. -/
def mergeMeasurement (data_list : List Entry) (m : Measurement) : List Entry :=
  if (data_list.find? (fun e => e.station_name = m.station_name)).isSome then
    appendToFirst data_list m.station_name m.pm25
  else
    data_list ++ [⟨m.station_name, some [m.pm25]⟩]

/-- The whole `for data in station_data` loop of one round
(lines 114-130). -/
def mergeRound (data_list : List Entry) (station_data : List Measurement) :
    List Entry :=
  station_data.foldl mergeMeasurement data_list

/-- `main`'s accumulated `data_list` after the sampling loop
(lines 109-132): fold the merge of each round's collector output over
round indices `0 .. total_samples - 1`.  `rounds i` is round `i`'s
completion-ordered fetch outcomes. -/
def mainData (rounds : Nat → List (StationId × Option Measurement))
    (total_samples : Nat) : List Entry :=
  (List.range total_samples).foldl
    (fun dl i => mergeRound dl (get_data_for_stations (rounds i)).1) []

/-- One line printed by `print_overall_average_value`: either
`name: average` or `name: No data available`. -/
inductive SummaryLine where
  | avg (station_name : String) (value : ℚ)
  | noData (station_name : String)
deriving DecidableEq, Repr

/-- `print_overall_average_value` (lines 89-97): for each entry, if
`pm25_values` is not `None` print `sum / len` (the exact rational; the
`:.2f` formatting is presentation only), else print "No data available".
Note: in Python `sum(vs) / len(vs)` raises `ZeroDivisionError` on an
empty list; `ℚ` division by zero yields `0` instead, so the claim that
the division is safe is stated as the reachable lists being non-empty. -/
def print_overall_average_value (data_list : List Entry) : List SummaryLine :=
  data_list.map (fun e =>
    match e.pm25_values with
    | some vs => .avg e.station_name (vs.sum / vs.length)
    | none => .noData e.station_name)

/-- Observable session effects, in order: the bounding-box network call
(line 102), the error report and early return (lines 103-105), each
invocation of the round collector (line 112) with the per-station fetch
submissions it makes (line 51), each `time.sleep(60 / sampling_rate)`
(lines 131-132), and the final printing (lines 135-136). -/
inductive Event where
  | resolveCall
  | reportResolveError
  | collectRound
  | fetch (id : StationId)
  | sleep (seconds : ℚ)
  | printSummary
deriving DecidableEq, Repr

/-- The events of round `i` of `total` (lines 111-132): one collector
invocation fanning out a fetch per resolved station id, then — only when
`i < total - 1` — a sleep of `60 / sampling_rate` seconds. -/
def roundEvents (station_ids : List StationId) (total i sampling_rate : Nat) :
    List Event :=
  Event.collectRound :: station_ids.map Event.fetch ++
    (if i < total - 1 then [Event.sleep ((60 : ℚ) / sampling_rate)] else [])

/-- The event trace of `main` (lines 100-136): one resolver call; on a
resolver error, report it and return (no rounds, no fetches, no
printing); otherwise run `sampling_period * sampling_rate` rounds and
print the summaries. -/
def mainEvents (resp : ResolverResponse)
    (sampling_period sampling_rate : Nat) : List Event :=
  let res := get_station_ids resp
  if res.2.isSome then
    [Event.resolveCall, Event.reportResolveError]
  else
    let station_ids := res.1.getD []
    let total := sampling_period * sampling_rate
    Event.resolveCall ::
      (List.range total).flatMap (fun i => roundEvents station_ids total i sampling_rate)
      ++ [Event.printSummary]

/-- Ids of the futures whose fetch failed in a round, in completion
order — these are the ids whose error line 62/64 prints. -/
def failedIds (completed : List (StationId × Option Measurement)) : List StationId :=
  completed.filterMap (fun p =>
    match p.2 with
    | some _ => none
    | none => some p.1)

/-- Observation: the value series recorded for a station name — the
`pm25_values` of the first `data_list` entry with that name (the entry
the scan at lines 120-124 would select), or `none` when no entry
exists. -/
def seriesOf (data_list : List Entry) (name : String) : Option (List ℚ) :=
  (data_list.find? (fun e => e.station_name = name)).bind (fun e => e.pm25_values)

/-- Observation: the values a round's `station_data` reports for a given
station name, in completion order. -/
def valuesFor (name : String) (station_data : List Measurement) : List ℚ :=
  station_data.filterMap (fun m =>
    if m.station_name = name then some m.pm25 else none)

/-- Specification-side description of one merge's effect on a series:
append the new values to the existing series, creating it exactly when
the first value for that name arrives. -/
def extendSeries (old : Option (List ℚ)) (vs : List ℚ) : Option (List ℚ) :=
  match old with
  | some l => some (l ++ vs)
  | none => if vs = [] then none else some vs

/-- A well-formed `data_list` entry: its value list is present and
non-empty. -/
def entryOk (e : Entry) : Prop :=
  e.pm25_values ≠ none ∧ e.pm25_values ≠ some []

/-- The aggregated-state invariant: every entry is well-formed and no
two entries share a station name. -/
def dataInvariant (data_list : List Entry) : Prop :=
  (∀ e ∈ data_list, entryOk e) ∧ (data_list.map Entry.station_name).Nodup

/-- Safety of the summary pass over a `data_list`: every entry carries a
present, non-empty value list, so `sum(vs) / len(vs)` divides by a
positive length and the `None` fallback of
`print_overall_average_value` is unreachable. -/
def summarySafe (data_list : List Entry) : Prop :=
  ∀ e ∈ data_list, ∃ vs, e.pm25_values = some vs ∧ 0 < vs.length

/-- All printed summary lines are average lines (no line is the
"No data available" fallback). -/
def allAvgLines (lines : List SummaryLine) : Prop :=
  ∀ line ∈ lines, ∃ n v, line = SummaryLine.avg n v

/-- Specification-side description of the paced round trace
(spec §4.4): `total` collector invocations, each fanning out one fetch
per resolved station, with one `60 / sampling_rate` second sleep
strictly between consecutive rounds — none after the last — and an
empty trace when `total = 0`. -/
def specPacedRounds (station_ids : List StationId) (sampling_rate : Nat) :
    Nat → List Event
  | 0 => []
  | n + 1 =>
    (List.range n).flatMap
      (fun _ => Event.collectRound :: station_ids.map Event.fetch ++
        [Event.sleep ((60 : ℚ) / sampling_rate)])
      ++ (Event.collectRound :: station_ids.map Event.fetch)

/-! ### Helper lemmas -/

theorem get_data_aux (completed : List (StationId × Option Measurement))
    (acc : List Measurement × List StationId) :
    completed.foldl
      (fun acc p =>
        match p.2 with
        | some m => (acc.1 ++ [m], acc.2)
        | none => (acc.1, acc.2 ++ [p.1])) acc
      = (acc.1 ++ completed.filterMap Prod.snd, acc.2 ++ failedIds completed) := by
  induction completed generalizing acc with
  | nil => simp [failedIds]
  | cons p rest ih =>
    cases h : p.2 with
    | some m =>
      simp only [List.foldl_cons, h, ih, failedIds, List.filterMap_cons]
      simp [h, List.append_assoc]
    | none =>
      simp only [List.foldl_cons, h, ih, failedIds, List.filterMap_cons]
      simp [h, List.append_assoc]

theorem get_data_spec (completed : List (StationId × Option Measurement)) :
    get_data_for_stations completed
      = (completed.filterMap Prod.snd, failedIds completed) := by
  simpa using get_data_aux completed ([], [])

theorem mergeMeasurement_nil (m : Measurement) :
    mergeMeasurement [] m = [⟨m.station_name, some [m.pm25]⟩] := rfl

theorem mergeMeasurement_cons (e : Entry) (rest : List Entry) (m : Measurement) :
    mergeMeasurement (e :: rest) m =
      if e.station_name = m.station_name then
        { e with pm25_values := e.pm25_values.map (fun vs => vs ++ [m.pm25]) } :: rest
      else
        e :: mergeMeasurement rest m := by
  by_cases h : e.station_name = m.station_name
  · simp [mergeMeasurement, appendToFirst, List.find?_cons, h]
  · by_cases h2 : (rest.find? (fun e => e.station_name = m.station_name)).isSome
    · simp [mergeMeasurement, appendToFirst, List.find?_cons, h, h2]
    · simp [mergeMeasurement, appendToFirst, List.find?_cons, h, h2]

theorem seriesOf_nil (name : String) : seriesOf [] name = none := rfl

theorem seriesOf_cons (e : Entry) (rest : List Entry) (name : String) :
    seriesOf (e :: rest) name =
      if e.station_name = name then e.pm25_values else seriesOf rest name := by
  by_cases h : e.station_name = name <;> simp [seriesOf, List.find?_cons, h]

theorem extendSeries_nil (old : Option (List ℚ)) : extendSeries old [] = old := by
  cases old <;> simp [extendSeries]

theorem extendSeries_extendSeries (old : Option (List ℚ)) (vs ws : List ℚ) :
    extendSeries (extendSeries old vs) ws = extendSeries old (vs ++ ws) := by
  cases old with
  | some l => simp [extendSeries]
  | none =>
    by_cases h : vs = []
    · subst h; simp [extendSeries]
    · by_cases h2 : ws = [] <;> simp [extendSeries, h, h2]

theorem valuesFor_cons (name : String) (m : Measurement) (ms : List Measurement) :
    valuesFor name (m :: ms) =
      if m.station_name = name then m.pm25 :: valuesFor name ms
      else valuesFor name ms := by
  by_cases h : m.station_name = name <;> simp [valuesFor, List.filterMap_cons, h]

theorem appendToFirst_names (dl : List Entry) (name : String) (v : ℚ) :
    (appendToFirst dl name v).map Entry.station_name = dl.map Entry.station_name := by
  induction dl with
  | nil => rfl
  | cons e rest ih =>
    by_cases h : e.station_name = name <;> simp [appendToFirst, h, ih]

theorem appendToFirst_entryOk (dl : List Entry) (name : String) (v : ℚ)
    (h : ∀ e ∈ dl, entryOk e) :
    ∀ e ∈ appendToFirst dl name v, entryOk e := by
  induction dl with
  | nil => simp [appendToFirst]
  | cons e rest ih =>
    have hok := h e (by simp)
    have hrest : ∀ e ∈ rest, entryOk e := fun e he => h e (by simp [he])
    by_cases hn : e.station_name = name
    · intro e' he'
      simp only [appendToFirst, hn, if_pos rfl] at he'
      rcases List.mem_cons.mp he' with h1 | h1
      · subst h1
        rcases hok with ⟨hne, hnil⟩
        cases hv : e.pm25_values with
        | none => exact absurd hv hne
        | some l =>
          constructor <;> simp [hv]
      · exact hrest e' h1
    · intro e' he'
      simp only [appendToFirst, hn, if_neg hn] at he'
      rcases List.mem_cons.mp he' with h1 | h1
      · subst h1; exact hok
      · exact ih hrest e' h1

theorem mergeMeasurement_entryOk (dl : List Entry) (m : Measurement)
    (h : ∀ e ∈ dl, entryOk e) :
    ∀ e ∈ mergeMeasurement dl m, entryOk e := by
  unfold mergeMeasurement
  by_cases hf : (dl.find? (fun e => e.station_name = m.station_name)).isSome
  · simpa [hf] using appendToFirst_entryOk dl m.station_name m.pm25 h
  · intro e' he'
    simp only [hf, if_neg, Bool.false_eq_true, not_false_eq_true] at he'
    rcases List.mem_append.mp he' with h1 | h1
    · exact h e' h1
    · simp only [List.mem_singleton] at h1
      subst h1
      constructor <;> simp [entryOk]

theorem mergeMeasurement_ne_none (dl : List Entry) (m : Measurement)
    (h : ∀ e ∈ dl, e.pm25_values ≠ none) :
    ∀ e ∈ mergeMeasurement dl m, e.pm25_values ≠ none := by
  induction dl with
  | nil =>
    rw [mergeMeasurement_nil]
    simp
  | cons e rest ih =>
    rw [mergeMeasurement_cons]
    have hok := h e (by simp)
    have hrest : ∀ e ∈ rest, e.pm25_values ≠ none := fun e he => h e (by simp [he])
    by_cases hn : e.station_name = m.station_name
    · intro e' he'
      simp only [if_pos hn] at he'
      rcases List.mem_cons.mp he' with h1 | h1
      · subst h1
        cases hv : e.pm25_values with
        | none => exact absurd hv hok
        | some l => simp [hv]
      · exact hrest e' h1
    · intro e' he'
      simp only [if_neg hn] at he'
      rcases List.mem_cons.mp he' with h1 | h1
      · subst h1; exact hok
      · exact ih hrest e' h1

theorem seriesOf_mergeMeasurement (dl : List Entry) (m : Measurement) (name : String)
    (h : ∀ e ∈ dl, e.pm25_values ≠ none) :
    seriesOf (mergeMeasurement dl m) name =
      if m.station_name = name then extendSeries (seriesOf dl name) [m.pm25]
      else seriesOf dl name := by
  induction dl with
  | nil =>
    rw [mergeMeasurement_nil, seriesOf_cons, seriesOf_nil]
    by_cases hn : m.station_name = name <;> simp [hn, extendSeries]
  | cons e rest ih =>
    have hok := h e (by simp)
    have hrest : ∀ e ∈ rest, e.pm25_values ≠ none := fun e he => h e (by simp [he])
    rw [mergeMeasurement_cons]
    by_cases h1 : e.station_name = m.station_name
    · rw [if_pos h1]
      by_cases h2 : e.station_name = name
      · have hm : m.station_name = name := h1 ▸ h2
        rcases Option.ne_none_iff_exists'.mp hok with ⟨l, hl⟩
        rw [seriesOf_cons, if_pos (by simpa using h2), if_pos hm,
          seriesOf_cons, if_pos h2, hl]
        simp [extendSeries]
      · have hm : m.station_name ≠ name := fun hc => h2 (h1.trans hc)
        rw [seriesOf_cons, if_neg (by simpa using h2), if_neg hm,
          seriesOf_cons, if_neg h2]
    · rw [if_neg h1, seriesOf_cons]
      by_cases h2 : e.station_name = name
      · have hm : m.station_name ≠ name := fun hc => h1 (h2.trans hc.symm)
        rw [if_pos h2, if_neg hm, seriesOf_cons, if_pos h2]
      · rw [if_neg h2, ih hrest, seriesOf_cons, if_neg h2]

theorem seriesOf_mergeRound (dl : List Entry) (ms : List Measurement) (name : String)
    (h : ∀ e ∈ dl, e.pm25_values ≠ none) :
    seriesOf (mergeRound dl ms) name
      = extendSeries (seriesOf dl name) (valuesFor name ms) := by
  induction ms generalizing dl with
  | nil => simp [mergeRound, valuesFor, extendSeries_nil]
  | cons m ms ih =>
    have hstep : mergeRound dl (m :: ms) = mergeRound (mergeMeasurement dl m) ms := rfl
    rw [hstep, ih (mergeMeasurement dl m) (mergeMeasurement_ne_none dl m h),
      seriesOf_mergeMeasurement dl m name h, valuesFor_cons]
    by_cases hn : m.station_name = name
    · rw [if_pos hn, if_pos hn, extendSeries_extendSeries]
      rfl
    · rw [if_neg hn, if_neg hn]

theorem mergeMeasurement_names (dl : List Entry) (m : Measurement) :
    (mergeMeasurement dl m).map Entry.station_name =
      if (dl.find? (fun e => e.station_name = m.station_name)).isSome
      then dl.map Entry.station_name
      else dl.map Entry.station_name ++ [m.station_name] := by
  unfold mergeMeasurement
  by_cases hf : (dl.find? (fun e => e.station_name = m.station_name)).isSome
  · simp [hf, appendToFirst_names]
  · simp [hf]

theorem mergeMeasurement_invariant (dl : List Entry) (m : Measurement)
    (h : dataInvariant dl) : dataInvariant (mergeMeasurement dl m) := by
  obtain ⟨hok, hnd⟩ := h
  refine ⟨mergeMeasurement_entryOk dl m hok, ?_⟩
  rw [mergeMeasurement_names]
  by_cases hf : (dl.find? (fun e => e.station_name = m.station_name)).isSome
  · simpa [hf] using hnd
  · rw [if_neg hf]
    have hnone := Option.not_isSome_iff_eq_none.mp hf
    have hall : ∀ e ∈ dl, ¬e.station_name = m.station_name := by
      intro e he
      have := List.find?_eq_none.mp hnone e he
      simpa using this
    simpa [List.nodup_append] using ⟨hnd, hall⟩

theorem mergeRound_invariant (dl : List Entry) (ms : List Measurement)
    (h : dataInvariant dl) : dataInvariant (mergeRound dl ms) := by
  induction ms generalizing dl with
  | nil => exact h
  | cons m ms ih => exact ih (mergeMeasurement dl m) (mergeMeasurement_invariant dl m h)

theorem mainData_invariant (rounds : Nat → List (StationId × Option Measurement))
    (total_samples : Nat) : dataInvariant (mainData rounds total_samples) := by
  have hgen : ∀ (l : List Nat) (dl : List Entry), dataInvariant dl →
      dataInvariant (l.foldl
        (fun dl i => mergeRound dl (get_data_for_stations (rounds i)).1) dl) := by
    intro l
    induction l with
    | nil => intro dl h; exact h
    | cons i l ih =>
      intro dl h
      exact ih _ (mergeRound_invariant _ _ h)
  exact hgen (List.range total_samples) [] ⟨by simp, by simp⟩

theorem dataInvariant_summarySafe (dl : List Entry) (h : dataInvariant dl) :
    summarySafe dl := by
  intro e he
  rcases h.1 e he with ⟨hne, hnil⟩
  cases hv : e.pm25_values with
  | none => exact absurd hv hne
  | some vs =>
    refine ⟨vs, rfl, ?_⟩
    cases vs with
    | nil => exact absurd hv (by simpa using hnil)
    | cons a l => simp

theorem flatMap_congr_mem {α β : Type} (l : List α) (f g : α → List β)
    (h : ∀ a ∈ l, f a = g a) : l.flatMap f = l.flatMap g := by
  induction l with
  | nil => rfl
  | cons a l ih =>
    simp only [List.flatMap_cons, h a (by simp)]
    rw [ih (fun a ha => h a (by simp [ha]))]

theorem rounds_flatMap_eq_spec (ids : List StationId) (r total : Nat) :
    (List.range total).flatMap (fun i => roundEvents ids total i r)
      = specPacedRounds ids r total := by
  cases total with
  | zero => rfl
  | succ n =>
    rw [List.range_succ, List.flatMap_append]
    have hpre : (List.range n).flatMap (fun i => roundEvents ids (n + 1) i r)
        = (List.range n).flatMap
          (fun _ => Event.collectRound :: ids.map Event.fetch ++
            [Event.sleep ((60 : ℚ) / r)]) := by
      refine flatMap_congr_mem _ _ _ (fun i hi => ?_)
      have : i < n := List.mem_range.mp hi
      simp [roundEvents, Nat.succ_sub_one, this]
    have hlast : [n].flatMap (fun i => roundEvents ids (n + 1) i r)
        = Event.collectRound :: ids.map Event.fetch := by
      simp [roundEvents, Nat.succ_sub_one]
    rw [hpre, hlast, specPacedRounds]

theorem count_flatMap_const {α : Type} (l : List α) (b : List Event) (a : Event) :
    ((l.flatMap fun _ => b).count a) = l.length * b.count a := by
  induction l with
  | nil => simp
  | cons x l ih => simp [List.flatMap_cons, List.count_append, ih, Nat.succ_mul, Nat.add_comm]

theorem count_collect_specPacedRounds (ids : List StationId) (r total : Nat) :
    (specPacedRounds ids r total).count Event.collectRound = total := by
  cases total with
  | zero => rfl
  | succ n =>
    have hbody : (Event.collectRound :: ids.map Event.fetch ++
        [Event.sleep ((60 : ℚ) / r)]).count Event.collectRound = 1 := by
      have hfetch : (ids.map Event.fetch).count Event.collectRound = 0 := by
        rw [List.count_eq_zero]
        intro hc
        rcases List.mem_map.mp hc with ⟨i, _, hi⟩
        exact absurd hi (by simp)
      simp [List.count_cons, List.count_append, hfetch]
    have hfetch : (ids.map Event.fetch).count Event.collectRound = 0 := by
      rw [List.count_eq_zero]
      intro hc
      rcases List.mem_map.mp hc with ⟨i, _, hi⟩
      exact absurd hi (by simp)
    rw [specPacedRounds, List.count_append, count_flatMap_const, hbody]
    simp [List.count_cons, List.count_append, hfetch, List.length_range]

theorem mainEvents_success (ids : List StationId) (p r : Nat) :
    mainEvents (.jsonWithData ids) p r =
      Event.resolveCall ::
        (List.range (p * r)).flatMap (fun i => roundEvents ids (p * r) i r)
        ++ [Event.printSummary] := rfl

theorem mainEvents_error (resp : ResolverResponse) (p r : Nat)
    (h : (get_station_ids resp).2.isSome) :
    mainEvents resp p r = [Event.resolveCall, Event.reportResolveError] := by
  unfold mainEvents
  simp [h]

theorem filterMap_snd_length_add (completed : List (StationId × Option Measurement)) :
    (completed.filterMap Prod.snd).length + (failedIds completed).length
      = completed.length := by
  induction completed with
  | nil => rfl
  | cons p rest ih =>
    cases h : p.2 with
    | some m =>
      simp only [failedIds, List.filterMap_cons, h] at *
      simpa [Nat.add_comm, Nat.add_assoc, Nat.add_left_comm] using congrArg Nat.succ ih
    | none =>
      simp only [failedIds, List.filterMap_cons, h] at *
      simpa [Nat.add_comm, Nat.add_assoc, Nat.add_left_comm] using congrArg Nat.succ ih

theorem filterMap_snd_filter_isSome (completed : List (StationId × Option Measurement)) :
    ((completed.filter (fun p => p.2.isSome)).filterMap Prod.snd)
      = completed.filterMap Prod.snd := by
  induction completed with
  | nil => rfl
  | cons p rest ih =>
    cases h : p.2 with
    | some m => simp [List.filter_cons, List.filterMap_cons, h, ih]
    | none => simp [List.filter_cons, List.filterMap_cons, h, ih]

theorem failedIds_eq_filter_map (completed : List (StationId × Option Measurement)) :
    failedIds completed = (completed.filter (fun p => p.2.isNone)).map Prod.fst := by
  induction completed with
  | nil => rfl
  | cons p rest ih =>
    cases h : p.2 with
    | some m => simp [failedIds, List.filter_cons, List.filterMap_cons, h] at *; exact ih
    | none => simp [failedIds, List.filter_cons, List.filterMap_cons, h] at *; exact ih

theorem summarySafe_allAvgLines (dl : List Entry) (h : summarySafe dl) :
    allAvgLines (print_overall_average_value dl) := by
  intro line hline
  rcases List.mem_map.mp hline with ⟨e, he, hl⟩
  rcases h e he with ⟨vs, hvs, _⟩
  refine ⟨e.station_name, vs.sum / vs.length, ?_⟩
  rw [← hl, hvs]

/-! ### Claim theorems -/

/-- Claim C1, counterexample: the claim says the Round Collector returns
exactly one result entry per input station id regardless of failures.
In the code a failed fetch produces no entry in the returned
`data_list` at all: with one input station whose fetch fails, the
returned list has zero entries, not one. -/
theorem collector_drops_failed_station :
    (get_data_for_stations [((0 : StationId), (none : Option Measurement))]).1.length = 0
    ∧ [((0 : StationId), (none : Option Measurement))].length = 1 := by
  constructor <;> rfl

/-- Claim C1, amended: for every round whose completed futures cover the
input station ids exactly once (in any completion order), the collector
returns one `data_list` entry per successful fetch, in completion
order, and prints one error per failed fetch; entries and printed
errors together account for every input station id exactly once, but
failed stations are dropped from the returned list. -/
theorem collector_entry_per_successful_fetch (station_ids : List StationId)
    (completed : List (StationId × Option Measurement))
    (h : (completed.map Prod.fst).Perm station_ids) :
    (get_data_for_stations completed).1 = completed.filterMap Prod.snd
    ∧ (get_data_for_stations completed).2 = failedIds completed
    ∧ (get_data_for_stations completed).1.length
        + (get_data_for_stations completed).2.length = station_ids.length := by
  have hspec := get_data_spec completed
  refine ⟨by rw [hspec], by rw [hspec], ?_⟩
  rw [hspec]
  have hlen : completed.length = station_ids.length := by
    simpa using h.length_eq
  simpa [hlen] using filterMap_snd_length_add completed

/-- Witness for the amended C1 theorem: round over stations 2 and 1,
station 1 succeeding and station 2 failing. -/
theorem collector_entry_per_successful_fetch_witness :
    (get_data_for_stations [((1 : StationId), some ⟨"A", 5⟩), (2, none)]).1
        = [((1 : StationId), some (⟨"A", 5⟩ : Measurement)), (2, none)].filterMap Prod.snd
    ∧ (get_data_for_stations [((1 : StationId), some ⟨"A", 5⟩), (2, none)]).2
        = failedIds [((1 : StationId), some ⟨"A", 5⟩), (2, none)]
    ∧ (get_data_for_stations [((1 : StationId), some ⟨"A", 5⟩), (2, none)]).1.length
        + (get_data_for_stations [((1 : StationId), some ⟨"A", 5⟩), (2, none)]).2.length
        = ([2, 1] : List StationId).length :=
  collector_entry_per_successful_fetch [2, 1]
    [((1 : StationId), some ⟨"A", 5⟩), (2, none)] (by decide)

/-- Claim C2, counterexample: the claim says a station observed with zero
recorded values is reported as "no data available" and never silently
omitted.  In the session where station id 2 (name "B") fails in both
rounds, the printed summary is exactly one average line for "A": no
line of any kind is printed for the failed station — it is silently
omitted. -/
theorem zero_data_station_silently_omitted :
    print_overall_average_value
        (mainData
          (fun i => if i = 0 then [(1, some ⟨"A", 25/2⟩), (2, none)]
            else [(1, some ⟨"A", 15⟩), (2, none)]) 2)
      = [SummaryLine.avg "A" (55/4)]
    ∧ SummaryLine.noData "B" ∉ [SummaryLine.avg "A" (55/4)] := by
  constructor
  · norm_num +decide [print_overall_average_value, mainData, mergeRound, mergeMeasurement,
      appendToFirst, get_data_for_stations, List.range_succ]
  · decide

/-- Claim C2, amended: a station with zero successful measurements never
appears in `data_list`, so it is silently omitted from the summary
rather than reported; every entry that does appear has a present,
non-empty value list, so the average computation divides by a positive
length (never raises, never divides by zero) and every printed line is
an average line — the "No data available" fallback is unreachable. -/
theorem average_never_divides_by_zero
    (rounds : Nat → List (StationId × Option Measurement)) (total_samples : Nat) :
    summarySafe (mainData rounds total_samples)
    ∧ allAvgLines (print_overall_average_value (mainData rounds total_samples)) := by
  have hsafe := dataInvariant_summarySafe _ (mainData_invariant rounds total_samples)
  exact ⟨hsafe, summarySafe_allAvgLines _ hsafe⟩

/-- Claim C3, counterexample: the claim says each failed fetch increments
a per-station failure counter keyed by StationId (station B's counter
reaching 1 in the scenario).  The code keeps no such counter: after
round 1 of the scenario (A succeeds with 12.5, B's fetch fails), the
entire aggregated state is one entry for "A", identical to the state of
a round in which station 2 was never fetched at all — nothing records
B's failure. -/
theorem failure_leaves_no_record :
    mergeRound [] (get_data_for_stations [(1, some ⟨"A", 25/2⟩), ((2 : StationId), none)]).1
      = mergeRound [] (get_data_for_stations [(1, some ⟨"A", 25/2⟩)]).1
    ∧ mergeRound [] (get_data_for_stations [(1, some ⟨"A", 25/2⟩), ((2 : StationId), none)]).1
      = [⟨"A", some [25/2]⟩] := by
  constructor <;> rfl

/-- Claim C3, amended: the code maintains no failure counter.  A failed
fetch only produces a printed error line; the merged state of any round
equals the state obtained by ignoring the failed stations entirely, and
in the two-round scenario the final state is series(A) = [12.5, 15.0]
and series(B) = [8.0] with no record of B's earlier failure. -/
theorem failures_only_printed (dl : List Entry)
    (completed : List (StationId × Option Measurement)) :
    mergeRound dl (get_data_for_stations completed).1
      = mergeRound dl (get_data_for_stations (completed.filter (fun p => p.2.isSome))).1
    ∧ (get_data_for_stations completed).2
      = (completed.filter (fun p => p.2.isNone)).map Prod.fst
    ∧ mainData (fun i => if i = 0 then [(1, some ⟨"A", 25/2⟩), (2, none)]
        else [(1, some ⟨"A", 15⟩), (2, some ⟨"B", 8⟩)]) 2
      = [⟨"A", some [25/2, 15]⟩, ⟨"B", some [8]⟩] := by
  refine ⟨?_, ?_, ?_⟩
  · rw [get_data_spec, get_data_spec, filterMap_snd_filter_isSome]
  · rw [get_data_spec, failedIds_eq_filter_map]
  · rfl

/-- Claim C4, counterexample: the claim says a sampling rate of 0 is
rejected as a configuration error before any network call.  The code
performs no rate validation: with rate 0 the session still makes the
resolver network call (the first event of the trace) and then completes
normally, printing the (empty) summaries — nothing is rejected. -/
theorem rate_zero_not_rejected :
    mainEvents (.jsonWithData [7]) 5 0 = [Event.resolveCall, Event.printSummary] := by
  rfl

/-- Claim C4, amended: a sampling rate of 0 is not rejected.  The
resolver network call is still made; because
`total_samples = sampling_period * 0 = 0` the sampling loop body never
runs (so the division `60 / sampling_rate` is never evaluated and no
round is collected), the aggregated state stays empty, and the summary
is printed for an empty list. -/
theorem rate_zero_resolves_then_skips_rounds (ids : List StationId) (p : Nat)
    (rounds : Nat → List (StationId × Option Measurement)) :
    mainEvents (.jsonWithData ids) p 0 = [Event.resolveCall, Event.printSummary]
    ∧ mainData rounds (p * 0) = [] := by
  constructor
  · rw [mainEvents_success]
    simp [Nat.mul_zero]
  · simp [mainData, Nat.mul_zero]

/-- Claim C5, confirmed: for a positive sampling rate the session trace
is exactly the resolver call, then `sampling_period * sampling_rate`
collector invocations (each fanning out one fetch per resolved
station), with a single sleep of `60 / sampling_rate` seconds strictly
between consecutive rounds and none after the last round, then the
summary printing; the collector is invoked exactly
`sampling_period * sampling_rate` times, and with zero total rounds the
aggregated state is empty (the session completes immediately). -/
theorem scheduler_paces_rounds (ids : List StationId) (p r : Nat)
    (rounds : Nat → List (StationId × Option Measurement)) (_hr : 0 < r) :
    mainEvents (.jsonWithData ids) p r
      = Event.resolveCall :: specPacedRounds ids r (p * r) ++ [Event.printSummary]
    ∧ (mainEvents (.jsonWithData ids) p r).count Event.collectRound = p * r
    ∧ mainData rounds 0 = [] := by
  have htrace : mainEvents (.jsonWithData ids) p r
      = Event.resolveCall :: specPacedRounds ids r (p * r) ++ [Event.printSummary] := by
    rw [mainEvents_success, rounds_flatMap_eq_spec]
  refine ⟨htrace, ?_, by simp [mainData]⟩
  rw [htrace]
  simp [List.count_cons, List.count_append, count_collect_specPacedRounds]

/-- Witness for C5: period 1 and rate 2 give two collector invocations
with one 30-second pause between them. -/
theorem scheduler_paces_rounds_witness :
    mainEvents (.jsonWithData [7]) 1 2
      = Event.resolveCall :: specPacedRounds [7] 2 (1 * 2) ++ [Event.printSummary]
    ∧ (mainEvents (.jsonWithData [7]) 1 2).count Event.collectRound = 1 * 2
    ∧ mainData (fun _ => []) 0 = [] :=
  scheduler_paces_rounds [7] 1 2 (fun _ => []) (by decide)

/-- Claim C6, confirmed: merging is keyed by the station name the source
reports, not by the StationId used to fetch (the collector already
discards the id on success — a `Measurement` carries only the reported
name and value).  For any round output `ms`, the series recorded under
`name` after the merge is the previous series extended, in round
(insertion) order, with exactly the values reported under that name —
created on first observation, so measurements fetched under different
StationIds but reporting the same name all land in the one series for
that name. -/
theorem merge_keyed_by_reported_name (dl : List Entry) (ms : List Measurement)
    (name : String) (h : ∀ e ∈ dl, e.pm25_values ≠ none) :
    seriesOf (mergeRound dl ms) name
      = extendSeries (seriesOf dl name) (valuesFor name ms) :=
  seriesOf_mergeRound dl ms name h

/-- Witness for C6: stations with distinct ids 1 and 2 both report name
"S"; their values end up in the single series for "S". -/
theorem merge_keyed_by_reported_name_witness :
    seriesOf (mergeRound []
        (get_data_for_stations [(1, some ⟨"S", 2⟩), ((2 : StationId), some ⟨"S", 3⟩)]).1) "S"
      = extendSeries (seriesOf [] "S")
          (valuesFor "S"
            (get_data_for_stations [(1, some ⟨"S", 2⟩), ((2 : StationId), some ⟨"S", 3⟩)]).1) :=
  merge_keyed_by_reported_name []
    (get_data_for_stations [(1, some ⟨"S", 2⟩), ((2 : StationId), some ⟨"S", 3⟩)]).1
    "S" (by simp)

/-- Claim C7, confirmed: `validate_coordinates` accepts exactly the boxes
whose latitudes lie in [-90, 90] and longitudes in [-180, 180], bounds
inclusive; any coordinate outside these ranges makes it raise a
`ValueError` instead of returning. -/
theorem validate_coordinates_iff (latitude_1 longitude_1 latitude_2 longitude_2 : ℚ) :
    validate_coordinates latitude_1 longitude_1 latitude_2 longitude_2 = .ok () ↔
      ((-90 ≤ latitude_1 ∧ latitude_1 ≤ 90) ∧ (-180 ≤ longitude_1 ∧ longitude_1 ≤ 180)
        ∧ (-90 ≤ latitude_2 ∧ latitude_2 ≤ 90)
        ∧ (-180 ≤ longitude_2 ∧ longitude_2 ≤ 180)) := by
  unfold validate_coordinates
  split_ifs with h1 h2 h3 h4 <;> simp_all

/-- Claim C8, confirmed: for every bounding-box response,
`get_station_ids` sets exactly one of its two result components — a
station list (success) or an error — and a response whose `data` field
holds an empty station list is a success carrying the empty list, not
an error. -/
theorem resolver_exactly_one_component (resp : ResolverResponse) :
    ((get_station_ids resp).1.isSome ↔ (get_station_ids resp).2.isNone)
    ∧ get_station_ids (.jsonWithData []) = (some [], none) := by
  refine ⟨?_, rfl⟩
  cases resp <;> simp [get_station_ids]

/-- Claim C9, confirmed: when the single resolver call made at session
start returns an error, the session trace is exactly the resolver call
followed by the error report — zero rounds run, no per-station fetch is
ever issued, and no summary is printed. -/
theorem resolver_error_aborts_session (resp : ResolverResponse) (p r : Nat)
    (h : (get_station_ids resp).2.isSome) :
    mainEvents resp p r = [Event.resolveCall, Event.reportResolveError] :=
  mainEvents_error resp p r h

/-- Witness for C9: a connection failure at resolve time. -/
theorem resolver_error_aborts_session_witness :
    mainEvents (.failure "connection error") 3 2
      = [Event.resolveCall, Event.reportResolveError] :=
  resolver_error_aborts_session (.failure "connection error") 3 2 (by rfl)

/-- Claim C10, confirmed: the empty initial state satisfies the
aggregated-state invariant, each merge step preserves it — every entry
keeps a present, non-empty value list and no two entries share a
station name — and consequently the summary over the merged state
divides by a positive length for every entry, the `None` fallback
branch being unreachable. -/
theorem aggregator_invariant_preserved (dl : List Entry) (m : Measurement)
    (h : dataInvariant dl) :
    dataInvariant [] ∧ dataInvariant (mergeMeasurement dl m)
    ∧ summarySafe (mergeMeasurement dl m) := by
  have hinv := mergeMeasurement_invariant dl m h
  exact ⟨⟨by simp, by simp⟩, hinv, dataInvariant_summarySafe _ hinv⟩

/-- Witness for C10: merging a measurement for a new station "B" into a
state holding one entry for "A". -/
theorem aggregator_invariant_preserved_witness :
    dataInvariant [] ∧ dataInvariant (mergeMeasurement [⟨"A", some [3]⟩] ⟨"B", 4⟩)
    ∧ summarySafe (mergeMeasurement [⟨"A", some [3]⟩] ⟨"B", 4⟩) :=
  aggregator_invariant_preserved [⟨"A", some [3]⟩] ⟨"B", 4⟩
    (by constructor
        · intro e he
          simp only [List.mem_singleton] at he
          subst he
          exact ⟨by simp, by simp⟩
        · simp)
